import Mathlib

/-!
Shallow embedding of the route-extraction core of the watchapi client
(Next.js file-router utilities, tRPC router utilities, Payload CMS config
parser), together with theorems settling the specification claims.

Strings manipulated by the extractors are modelled as `List Char`, so that
the JavaScript regex-replace loops can be embedded as explicit scanners.
Where a JS `String.replace(/re/g, ...)` is involved, the scanner walks the
string left to right, replacing a match and resuming after it, or copying
one character and advancing; the scanner is written with a fuel argument
(initialised to the string length, which bounds the number of iterations)
so that it is structurally recursive and computable by `decide`.
-/

namespace WatchApi

abbrev Chars := List Char

/-- Generic left-to-right replace-all scanner. `m s` returns
`some (replacement, remainder)` when the regex matches at the start of `s`
(consuming at least one character); otherwise the head character is copied
and scanning resumes one character later, exactly like a JS global replace. -/
def jsReplaceScan (m : Chars → Option (Chars × Chars)) : Nat → Chars → Chars
  | 0, s => s
  | _ + 1, [] => []
  | fuel + 1, c :: cs =>
    match m (c :: cs) with
    | some (rep, tail) => rep ++ jsReplaceScan m fuel tail
    | none => c :: jsReplaceScan m fuel cs

/-! ## Next.js dynamic-segment conversion (`convertDynamicSegments`)

Source: the chained global replaces
`\[\[\.\.\.([^\]]+)\]\]` → `:$1*?`, then `\[\.\.\.([^\]]+)\]` → `:$1*`,
then `\[([^\]]+)\]` → `:$1` (part_013, `DYNAMIC_SEGMENT_REGEX` /
`CATCH_ALL_REGEX` / `OPTIONAL_CATCH_ALL_REGEX` in nextjs-constants.ts). -/

/-- Match `\[\[\.\.\.([^\]]+)\]\]` at the start of the string; on success
return the JS replacement `:$1*?` and the remainder after the match. -/
def matchOptCatchAll : Chars → Option (Chars × Chars)
  | '[' :: '[' :: '.' :: '.' :: '.' :: rest =>
    match rest.takeWhile (fun c => c ≠ ']'), rest.dropWhile (fun c => c ≠ ']') with
    | [], _ => none
    | name, ']' :: ']' :: tail => some (':' :: name ++ ['*', '?'], tail)
    | _, _ => none
  | _ => none

/-- Match `\[\.\.\.([^\]]+)\]` at the start; replacement `:$1*`. -/
def matchCatchAll : Chars → Option (Chars × Chars)
  | '[' :: '.' :: '.' :: '.' :: rest =>
    match rest.takeWhile (fun c => c ≠ ']'), rest.dropWhile (fun c => c ≠ ']') with
    | [], _ => none
    | name, ']' :: tail => some (':' :: name ++ ['*'], tail)
    | _, _ => none
  | _ => none

/-- Match `\[([^\]]+)\]` at the start; replacement `:$1`. -/
def matchPlainSeg : Chars → Option (Chars × Chars)
  | '[' :: rest =>
    match rest.takeWhile (fun c => c ≠ ']'), rest.dropWhile (fun c => c ≠ ']') with
    | [], _ => none
    | name, ']' :: tail => some (':' :: name, tail)
    | _, _ => none
  | _ => none

/-- `routePath.replace(/\[\[\.\.\.([^\]]+)\]\]/g, ':$1*?')`. -/
def replaceOptCatchAll (s : Chars) : Chars := jsReplaceScan matchOptCatchAll s.length s

/-- `routePath.replace(/\[\.\.\.([^\]]+)\]/g, ':$1*')`. -/
def replaceCatchAll (s : Chars) : Chars := jsReplaceScan matchCatchAll s.length s

/-- `routePath.replace(/\[([^\]]+)\]/g, ':$1')`. -/
def replacePlainSeg (s : Chars) : Chars := jsReplaceScan matchPlainSeg s.length s

/-- `convertDynamicSegments` (part_013 lines 142-147): optional catch-all
first, then catch-all, then plain parameter. -/
def convertDynamicSegments (routePath : Chars) : Chars :=
  replacePlainSeg (replaceCatchAll (replaceOptCatchAll routePath))

/-! ## Next.js file classification (part_013 lines 20-31) -/

/-- `filePath.replace(/\\/g, '/')`. -/
def normalizeSlashes (s : Chars) : Chars := s.map (fun c => if c = '\\' then '/' else c)

/-- JS `String.includes`: the needle occurs as a contiguous substring. -/
def includesSub (needle : Chars) : Chars → Bool
  | [] => needle.isPrefixOf []
  | c :: cs => needle.isPrefixOf (c :: cs) || includesSub needle cs

/-- `isAppRouterFile` (part_013 lines 20-23).  The `&&`/`||` precedence is
kept exactly as in the source: `(includes && endsWith ts) || endsWith js`. -/
def isAppRouterFile (filePath : Chars) : Bool :=
  let normalized := normalizeSlashes filePath
  (includesSub ("/app/".toList) normalized && ("/route.ts".toList).isSuffixOf normalized)
    || ("/route.js".toList).isSuffixOf normalized

/-- `isPagesRouterFile` (part_013 lines 28-31). -/
def isPagesRouterFile (filePath : Chars) : Bool :=
  let normalized := normalizeSlashes filePath
  includesSub ("/pages/api/".toList) normalized
    && !(("/route.ts".toList).isSuffixOf normalized)
    && !(("/route.js".toList).isSuffixOf normalized)

/-! ## The vscode-extension Next.js parser (route path + method detection) -/

/-- Uniform Route record (`ParsedRoute` in shared/types). -/
structure ParsedRoute where
  name : String
  path : String
  method : String
  filePath : String
  type : String
deriving DecidableEq, Repr

/-- `extractAppRoutePath` (vscode-extension parser): strip a leading `src/`,
turn a leading `app/` into `/`, strip a trailing `/route.ts|js`, then the
plain `[param]` → `:param` global replace. -/
def extractAppRoutePath (relativePath : Chars) : Chars :=
  let normalized :=
    if ("src/".toList).isPrefixOf relativePath then relativePath.drop 4 else relativePath
  let rp1 :=
    if ("app/".toList).isPrefixOf normalized then '/' :: normalized.drop 4 else normalized
  let rp2 :=
    if ("/route.ts".toList).isSuffixOf rp1 || ("/route.js".toList).isSuffixOf rp1
    then rp1.take (rp1.length - 9) else rp1
  replacePlainSeg rp2

/-- `extractPageRoutePath` (vscode-extension parser): `^pages/api/` →
`/api/`, strip a trailing `.ts|.js`, `[param]` → `:param`, strip a trailing
`/index`, and default to `/api` when everything was stripped. -/
def extractPageRoutePath (relativePath : Chars) : Chars :=
  let s1 :=
    if ("pages/api/".toList).isPrefixOf relativePath
    then ("/api/".toList) ++ relativePath.drop 10 else relativePath
  let s2 :=
    if ((".ts".toList).isSuffixOf s1 || (".js".toList).isSuffixOf s1)
    then s1.take (s1.length - 3) else s1
  let s3 := replacePlainSeg s2
  let s4 :=
    if ("/index".toList).isSuffixOf s3 then s3.take (s3.length - 6) else s3
  if s4.isEmpty then "/api".toList else s4

/-- JS `\s` for the character classes appearing in the method-check regexes. -/
def jsWhitespace (c : Char) : Bool :=
  c = ' ' || c = '\t' || c = '\n' || c = '\r' || c = '\x0b' || c = '\x0c'

/-- A JS `['"]` quote character (codepoint 39 is the single quote). -/
def isQuote (c : Char) : Bool := c = Char.ofNat 39 || c = '"'

/-- Match `req\.method\s*===\s*['"]VERB['"]` at the start of the string. -/
def matchMethodEqAt (verb : Chars) (s : Chars) : Bool :=
  if ("req.method".toList).isPrefixOf s then
    let s1 := (s.drop 10).dropWhile jsWhitespace
    if ("===".toList).isPrefixOf s1 then
      let s2 := (s1.drop 3).dropWhile jsWhitespace
      match s2 with
      | q :: rest =>
        isQuote q && verb.isPrefixOf rest &&
          (match rest.drop verb.length with
           | q2 :: _ => isQuote q2
           | [] => false)
      | [] => false
    else false
  else false

/-- `text.match(/req\.method\s*===\s*['"]VERB['"]/) !== null`. -/
def hasMethodEq (verb : Chars) : Chars → Bool
  | [] => false
  | c :: cs => matchMethodEqAt verb (c :: cs) || hasMethodEq verb cs

/-- Method detection of `parsePageRouteFile` (vscode-extension parser):
an `else if` chain over POST, PUT, PATCH, DELETE with default GET. -/
def detectPageMethod (text : Chars) : String :=
  if hasMethodEq ("POST".toList) text then "POST"
  else if hasMethodEq ("PUT".toList) text then "PUT"
  else if hasMethodEq ("PATCH".toList) text then "PATCH"
  else if hasMethodEq ("DELETE".toList) text then "DELETE"
  else "GET"

/-- The pure core of `parsePageRouteFile`: one Route from the file's
workspace-relative path and its text.  (File I/O and the workspace lookup
are outside the embedding; `filePath` is recorded from the same input.) -/
def parsePageRouteFileCore (relativePath text : Chars) : ParsedRoute :=
  let routePath := String.mk (extractPageRoutePath relativePath)
  let method := detectPageMethod text
  { name := method ++ " " ++ routePath
    path := routePath
    method := method
    filePath := String.mk relativePath
    type := "nextjs-page" }

/-! ## `detectPagesRouterMethods` (part_013 lines 233-266) -/

/-- Generic matchAll-style scanner: collect captures left to right,
resuming after each match, advancing one character otherwise. -/
def scanMatches (m : Chars → Option (Chars × Chars)) : Nat → Chars → List Chars
  | 0, _ => []
  | _ + 1, [] => []
  | fuel + 1, c :: cs =>
    match m (c :: cs) with
    | some (v, tail) => v :: scanMatches m fuel tail
    | none => scanMatches m fuel cs

/-- The verb alternation `(GET|POST|PUT|PATCH|DELETE|HEAD|OPTIONS)`,
in the source's order. -/
def HTTP_VERB_ALTERNATION : List Chars :=
  ["GET", "POST", "PUT", "PATCH", "DELETE", "HEAD", "OPTIONS"].map String.toList

/-- Regex alternation followed by a closing `['"]`: try the verbs in order
and succeed on the first one followed by a quote, as backtracking does. -/
def findVerb (verbs : List Chars) (rest : Chars) : Option (Chars × Chars) :=
  match verbs with
  | [] => none
  | v :: vs =>
    if v.isPrefixOf rest then
      match rest.drop v.length with
      | q2 :: tail => if isQuote q2 then some (v, tail) else findVerb vs rest
      | [] => findVerb vs rest
    else findVerb vs rest

/-- Match `req\.method\s*===\s*['"](VERB)['"]` at the start, returning the
captured verb and the remainder after the match. -/
def matchReqMethodCheck (s : Chars) : Option (Chars × Chars) :=
  if ("req.method".toList).isPrefixOf s then
    let s1 := (s.drop 10).dropWhile jsWhitespace
    if ("===".toList).isPrefixOf s1 then
      let s2 := (s1.drop 3).dropWhile jsWhitespace
      match s2 with
      | q :: rest => if isQuote q then findVerb HTTP_VERB_ALTERNATION rest else none
      | [] => none
    else none
  else none

/-- Match `case\s+['"](VERB)['"]` at the start (note `\s+`: at least one
whitespace character). -/
def matchSwitchCase (s : Chars) : Option (Chars × Chars) :=
  if ("case".toList).isPrefixOf s then
    match s.drop 4 with
    | c :: _ =>
      if jsWhitespace c then
        match (s.drop 4).dropWhile jsWhitespace with
        | q :: rest => if isQuote q then findVerb HTTP_VERB_ALTERNATION rest else none
        | [] => none
      else none
    | [] => none
  else none

/-- All `req.method === 'VERB'` captures of the handler text, in order. -/
def findMethodChecks (t : Chars) : List Chars := scanMatches matchReqMethodCheck t.length t

/-- All `case 'VERB'` captures of the handler text, in order. -/
def findSwitchCases (t : Chars) : List Chars := scanMatches matchSwitchCase t.length t

/-- `if (!methods.includes(method)) methods.push(method)`, folded over a
capture list. -/
def addNewMethods (acc : List String) : List Chars → List String
  | [] => acc
  | v :: vs =>
    if String.mk v ∈ acc then addNewMethods acc vs
    else addNewMethods (acc ++ [String.mk v]) vs

/-- `detectPagesRouterMethods`: equality checks first, then switch cases,
each deduplicated in order of appearance; `['GET']` when nothing matched. -/
def detectPagesRouterMethods (handlerText : Chars) : List String :=
  let ms := addNewMethods [] (findMethodChecks handlerText)
  let ms := addNewMethods ms (findSwitchCases handlerText)
  if ms.isEmpty then ["GET"] else ms

/-! ## tRPC procedure parser (part_013 lines 385-434) -/

/-- `path.basename(p, path.extname(p))`: the final path component with its
last `.ext` (when the dot is not the component's first character) removed. -/
def baseNameNoExt (p : Chars) : Chars :=
  let base := ((p.reverse).takeWhile (fun c => c ≠ '/')).reverse
  match (base.reverse).dropWhile (fun c => c ≠ '.') with
  | [] => base
  | _ :: [] => base
  | _ :: rest => rest.reverse

/-- Match `\.TAG\(['"]([^'"]+)['"]` at the start, returning the captured
procedure name and the remainder after the match. -/
def matchProcCall (tag : Chars) (s : Chars) : Option (Chars × Chars) :=
  let pat := '.' :: tag ++ ['(']
  if pat.isPrefixOf s then
    match s.drop pat.length with
    | q :: rest =>
      if isQuote q then
        match rest.takeWhile (fun c => !(isQuote c)),
              rest.dropWhile (fun c => !(isQuote c)) with
        | [], _ => none
        | nm, _ :: tail => some (nm, tail)
        | _, [] => none
      else none
    | [] => none
  else none

/-- The pure core of `parseTRPCRouterFile`: the router name comes from the
file's base name (with a `.router` suffix stripped), queries map to GET and
mutations to POST under `/api/trpc/<router>.<procedure>`. -/
def parseTRPCRouterFileCore (fsPath text : Chars) : List ParsedRoute :=
  let fileName := baseNameNoExt fsPath
  let routerName :=
    if (".router".toList).isSuffixOf fileName
    then fileName.take (fileName.length - 7) else fileName
  let queries := scanMatches (matchProcCall ("query".toList)) text.length text
  let mutations := scanMatches (matchProcCall ("mutation".toList)) text.length text
  (queries.map fun procedureName =>
    let routePath := String.mk (("/api/trpc/".toList) ++ routerName ++ '.' :: procedureName)
    { name := "GET " ++ routePath, path := routePath, method := "GET"
      filePath := String.mk fsPath, type := "trpc" })
  ++ (mutations.map fun procedureName =>
    let routePath := String.mk (("/api/trpc/".toList) ++ routerName ++ '.' :: procedureName)
    { name := "POST " ++ routePath, path := routePath, method := "POST"
      filePath := String.mk fsPath, type := "trpc" })

/-! ## tRPC router detection configuration (part_012, trpc-constants.ts) -/

/-- A compiled JS regular expression, by source text and flags. -/
structure RegExpV where
  source : String
  flags : String
deriving DecidableEq, Repr

def ROUTER_FACTORY_NAMES : List String := ["createTRPCRouter", "router"]

/-- `/router$/i`. -/
def ROUTER_IDENTIFIER_PATTERN : RegExpV := ⟨"router$", "i"⟩

structure RouterDetectionConfig where
  factoryNames : List String
  identifierPattern : RegExpV
deriving DecidableEq, Repr

/-- `Array.from(new Set(xs))`: keep the first occurrence of each element. -/
def dedupKeepFirst (seen : List String) : List String → List String
  | [] => []
  | x :: xs => if x ∈ seen then dedupKeepFirst seen xs else x :: dedupKeepFirst (x :: seen) xs

/-- `normalizeFactoryNames` (part_012 lines 237-245). -/
def normalizeFactoryNames (names : Option (List String)) : List String :=
  match names with
  | none => ROUTER_FACTORY_NAMES
  | some ns =>
    if ns.isEmpty then ROUTER_FACTORY_NAMES
    else
      let list := (ns.flatMap (fun item => item.splitOn ",")).map (fun s => s.trim)
      let deduped := dedupKeepFirst [] (list.filter (fun s => s ≠ ""))
      if deduped.isEmpty then ROUTER_FACTORY_NAMES else deduped

/-- `buildRouterIdentifierPattern` (part_012 lines 250-265).  `new RegExp`
is the JS engine's compiler, passed in as `compile` (`none` models a
syntax error being thrown, which the source catches); the second component
collects the diagnostic messages sent to the debug sink.  The source's
`if (!pattern)` guard is a JS falsiness test, so an absent *or empty*
pattern string short-circuits to the compiled default before the compiler
is ever consulted. -/
def buildRouterIdentifierPattern (compile : String → Option RegExpV) :
    Option String → RegExpV × List String
  | none => (ROUTER_IDENTIFIER_PATTERN, [])
  | some p =>
    if p = "" then (ROUTER_IDENTIFIER_PATTERN, [])
    else
      match compile p with
      | some r => (r, [])
      | none =>
        (ROUTER_IDENTIFIER_PATTERN,
          ["Failed to parse router identifier pattern, falling back to default"])

/-- `buildRouterDetectionConfig` (part_012 lines 20-38). -/
def buildRouterDetectionConfig (compile : String → Option RegExpV)
    (routerFactories : Option (List String)) (identifierSource : Option String) :
    RouterDetectionConfig × List String :=
  let factoryNames := dedupKeepFirst [] (normalizeFactoryNames routerFactories)
  let ip := buildRouterIdentifierPattern compile identifierSource
  ({ factoryNames := factoryNames, identifierPattern := ip.1 }, ip.2)

/-! ## Payload CMS config parser (part_000)

AST model for the parts of ts-morph the parser inspects.  Symbol lookup
(`node.getSymbol().getDeclarations()`) is modelled by an environment keyed
by the referenced name; module resolution
(`importDecl.getModuleSpecifierSourceFile()`) by a map from module
specifier to the resolved module's exported declarations. -/

mutual
inductive PExpr where
  | objectLit (props : List PProp) (line : Nat)
  | arrayLit (elements : List PExpr)
  | stringLit (value : String)
  | templateLit (value : String)
  | trueLit
  | falseLit
  | ident (name : String)
  | propAccess (base : String) (name : String)
  | spreadElem (e : PExpr)
  | callExpr (callee : String) (args : List PExpr)
  | asExpr (e : PExpr)
  | satisfiesExpr (e : PExpr)
  | parenExpr (e : PExpr)
  | otherExpr

inductive PProp where
  | assign (name : String) (init : Option PExpr)
  | otherProp
end

inductive PDecl where
  | varDecl (name : String) (init : Option PExpr) (sourceFilePath : String)
  | exportAssign (e : PExpr) (sourceFilePath : String)
  | importSpec (importedName : String) (moduleSpecifier : String)
  | otherDecl

structure PModule where
  filePath : String
  exportsOf : String → List PDecl

structure PEnv where
  symbols : String → List PDecl
  modules : String → Option PModule

/-- The name under which a reference node's symbol is looked up
(identifier text, or the accessed property name). -/
def symbolKey : PExpr → Option String
  | .ident n => some n
  | .propAccess _ n => some n
  | _ => none

/-- An `{ path, method }` endpoint record. -/
structure PathMethod where
  path : String
  method : String
deriving DecidableEq, Repr

/-- `obj.getProperty(name)` restricted to property assignments. -/
def getProp (props : List PProp) (name : String) : Option PProp :=
  props.find? (fun p => match p with | .assign n _ => n == name | .otherProp => false)

/-- `extractStringProperty` (part_000 lines 1332-1355): a string literal or
a no-substitution template literal initializer. -/
def extractStringProperty (props : List PProp) (propertyName : String) : Option String :=
  match getProp props propertyName with
  | some (.assign _ (some (.stringLit v))) => some v
  | some (.assign _ (some (.templateLit v))) => some v
  | _ => none

/-- `extractBooleanProperty` (part_000 lines 1360-1388): `true`, `false`,
or an object literal (e.g. `auth: { ... }` counts as enabled). -/
def extractBooleanProperty (props : List PProp) (propertyName : String) : Bool :=
  match getProp props propertyName with
  | some (.assign _ (some .trueLit)) => true
  | some (.assign _ (some .falseLit)) => false
  | some (.assign _ (some (.objectLit _ _))) => true
  | _ => false

/-- `findObjectLiteralInExpression` (part_000 lines 587-614). -/
def findObjectLiteralInExpression : PExpr → Option (List PProp × Nat)
  | .objectLit ps ln => some (ps, ln)
  | .callExpr _ (arg0 :: _) =>
    match arg0 with
    | .objectLit ps ln => some (ps, ln)
    | _ => none
  | .callExpr _ [] => none
  | .asExpr e => findObjectLiteralInExpression e
  | .satisfiesExpr e => findObjectLiteralInExpression e
  | .parenExpr e => findObjectLiteralInExpression e
  | _ => none

/-- `parseEndpointObject` (part_000 lines 719-732). -/
def parseEndpointObject (props : List PProp) : Option PathMethod :=
  match extractStringProperty props "path", extractStringProperty props "method" with
  | some p, some m => some ⟨p, m⟩
  | _, _ => none

/-- One step of a declaration loop with early return: `some r` models
`return r` (even when `r` is null), `none` models falling through to the
next declaration. -/
def firstStep {α : Type} (f : PDecl → Option (Option α)) : List PDecl → Option α
  | [] => none
  | d :: ds =>
    match f d with
    | some r => r
    | none => firstStep f ds

/-- The per-declaration body of `resolveEndpointReference`
(part_000 lines 750-792). -/
def resolveEndpointDeclStep (env : PEnv) : PDecl → Option (Option PathMethod)
  | .varDecl _ (some init) _ =>
    match findObjectLiteralInExpression init with
    | some (ps, _) => some (parseEndpointObject ps)
    | none => none
  | .importSpec name spec =>
    match env.modules spec with
    | some m =>
      match m.exportsOf name with
      | d0 :: _ =>
        match d0 with
        | .varDecl _ (some init) _ =>
          match findObjectLiteralInExpression init with
          | some (ps, _) => some (parseEndpointObject ps)
          | none => none
        | _ => none
      | [] => none
    | none => none
  | _ => none

/-- `resolveEndpointReference` (part_000 lines 737-796). -/
def resolveEndpointReference (env : PEnv) (node : PExpr) : Option PathMethod :=
  match symbolKey node with
  | some key => firstStep (resolveEndpointDeclStep env) (env.symbols key)
  | none => none

/-- `resolveSpreadEndpoints` (part_000 lines 801-840): identifier behind
the spread, array-literal initializer, object-literal or identifier
elements only. -/
def resolveSpreadEndpoints (env : PEnv) : PExpr → List PathMethod
  | .ident n =>
    (env.symbols n).flatMap fun d =>
      match d with
      | .varDecl _ (some (.arrayLit els)) _ =>
        els.filterMap fun el =>
          match el with
          | .objectLit ps _ => parseEndpointObject ps
          | .ident m => resolveEndpointReference env (.ident m)
          | _ => none
      | _ => []
  | _ => []

/-- `extractCollectionEndpoints` (part_000 lines 667-714). -/
def extractCollectionEndpoints (env : PEnv) (props : List PProp) : List PathMethod :=
  match getProp props "endpoints" with
  | some (.assign _ (some (.arrayLit els))) =>
    els.flatMap fun el =>
      match el with
      | .objectLit ps _ => (parseEndpointObject ps).toList
      | .ident m => (resolveEndpointReference env (.ident m)).toList
      | .spreadElem e => resolveSpreadEndpoints env e
      | _ => []
  | _ => []

structure ParsedCollection where
  slug : String
  auth : Bool
  upload : Bool
  endpoints : List PathMethod
  line : Nat
  sourceFile : Option String
deriving DecidableEq, Repr

/-- `parseCollectionObject` (part_000 lines 404-429). -/
def parseCollectionObject (env : PEnv) (props : List PProp) (line : Nat)
    (sourceFile : Option String) : Option ParsedCollection :=
  match extractStringProperty props "slug" with
  | none => none
  | some slug =>
    some { slug := slug
           auth := extractBooleanProperty props "auth"
           upload := extractBooleanProperty props "upload"
           endpoints := extractCollectionEndpoints env props
           line := line
           sourceFile := sourceFile }

/-- The per-declaration body of `resolveCollectionReference`
(part_000 lines 454-577): object literal, factory call with an
object-literal first argument, `as` / `satisfies` directly wrapping an
object literal, the recursive unwrap fallback, export assignment, and a
one-step import follow. -/
def resolveCollectionDeclStep (env : PEnv) : PDecl → Option (Option ParsedCollection)
  | .varDecl _ (some init) src =>
    match init with
    | .objectLit ps ln => some (parseCollectionObject env ps ln (some src))
    | .callExpr _ ((.objectLit ps ln) :: _) => some (parseCollectionObject env ps ln (some src))
    | .asExpr (.objectLit ps ln) => some (parseCollectionObject env ps ln (some src))
    | .satisfiesExpr (.objectLit ps ln) => some (parseCollectionObject env ps ln (some src))
    | _ =>
      match findObjectLiteralInExpression init with
      | some (ps, ln) => some (parseCollectionObject env ps ln (some src))
      | none => none
  | .exportAssign (.objectLit ps ln) src => some (parseCollectionObject env ps ln (some src))
  | .importSpec name spec =>
    match env.modules spec with
    | some m =>
      match m.exportsOf name with
      | d0 :: _ =>
        match d0 with
        | .varDecl _ (some init) _ =>
          match findObjectLiteralInExpression init with
          | some (ps, ln) => some (parseCollectionObject env ps ln (some m.filePath))
          | none => none
        | _ => none
      | [] => none
    | none => none
  | _ => none

/-- `resolveCollectionReference` (part_000 lines 434-581). -/
def resolveCollectionReference (env : PEnv) (node : PExpr) : Option ParsedCollection :=
  match symbolKey node with
  | some key => firstStep (resolveCollectionDeclStep env) (env.symbols key)
  | none => none

/-- `resolveSpreadCollections` (part_000 lines 619-661): identifier behind
the spread, array-literal initializer; object-literal and identifier
elements are resolved, every other element shape (including a nested
spread) is skipped. -/
def resolveSpreadCollections (env : PEnv) : PExpr → List ParsedCollection
  | .ident n =>
    (env.symbols n).flatMap fun d =>
      match d with
      | .varDecl _ (some (.arrayLit els)) _ =>
        els.filterMap fun el =>
          match el with
          | .objectLit ps ln => parseCollectionObject env ps ln none
          | .ident m => resolveCollectionReference env (.ident m)
          | _ => none
      | _ => []
  | _ => []

/-- `extractCollections` (part_000 lines 346-399). -/
def extractCollections (env : PEnv) (configProps : List PProp) : List ParsedCollection :=
  match getProp configProps "collections" with
  | some (.assign _ (some (.arrayLit els))) =>
    els.flatMap fun el =>
      match el with
      | .objectLit ps ln => (parseCollectionObject env ps ln none).toList
      | .ident m => (resolveCollectionReference env (.ident m)).toList
      | .propAccess b m => (resolveCollectionReference env (.propAccess b m)).toList
      | .spreadElem e => resolveSpreadCollections env e
      | _ => []
  | _ => []

structure ParsedGlobal where
  slug : String
  endpoints : List PathMethod
  line : Nat
  sourceFile : Option String
deriving DecidableEq, Repr

/-- `parseGlobalObject` (part_000 lines 911-931). -/
def parseGlobalObject (env : PEnv) (props : List PProp) (line : Nat)
    (sourceFile : Option String) : Option ParsedGlobal :=
  match extractStringProperty props "slug" with
  | none => none
  | some slug =>
    some { slug := slug
           endpoints := extractCollectionEndpoints env props
           line := line
           sourceFile := sourceFile }

/-- The per-declaration body of `resolveGlobalReference`
(part_000 lines 955-1020): only the object-literal and factory-call cases
for variable declarations, plus the one-step import follow. -/
def resolveGlobalDeclStep (env : PEnv) : PDecl → Option (Option ParsedGlobal)
  | .varDecl _ (some init) src =>
    match init with
    | .objectLit ps ln => some (parseGlobalObject env ps ln (some src))
    | .callExpr _ ((.objectLit ps ln) :: _) => some (parseGlobalObject env ps ln (some src))
    | _ => none
  | .importSpec name spec =>
    match env.modules spec with
    | some m =>
      match m.exportsOf name with
      | d0 :: _ =>
        match d0 with
        | .varDecl _ (some init) _ =>
          match findObjectLiteralInExpression init with
          | some (ps, ln) => some (parseGlobalObject env ps ln (some m.filePath))
          | none => none
        | _ => none
      | [] => none
    | none => none
  | _ => none

/-- `resolveGlobalReference` (part_000 lines 936-1024). -/
def resolveGlobalReference (env : PEnv) (node : PExpr) : Option ParsedGlobal :=
  match symbolKey node with
  | some key => firstStep (resolveGlobalDeclStep env) (env.symbols key)
  | none => none

/-- `resolveSpreadGlobals` (part_000 lines 1029-1065). -/
def resolveSpreadGlobals (env : PEnv) : PExpr → List ParsedGlobal
  | .ident n =>
    (env.symbols n).flatMap fun d =>
      match d with
      | .varDecl _ (some (.arrayLit els)) _ =>
        els.filterMap fun el =>
          match el with
          | .objectLit ps ln => parseGlobalObject env ps ln none
          | .ident m => resolveGlobalReference env (.ident m)
          | _ => none
      | _ => []
  | _ => []

/-- `extractGlobals` (part_000 lines 856-906). -/
def extractGlobals (env : PEnv) (configProps : List PProp) : List ParsedGlobal :=
  match getProp configProps "globals" with
  | some (.assign _ (some (.arrayLit els))) =>
    els.flatMap fun el =>
      match el with
      | .objectLit ps ln => (parseGlobalObject env ps ln none).toList
      | .ident m => (resolveGlobalReference env (.ident m)).toList
      | .propAccess b m => (resolveGlobalReference env (.propAccess b m)).toList
      | .spreadElem e => resolveSpreadGlobals env e
      | _ => []
  | _ => []

/-- `extractApiPrefix` (part_000 lines 308-328): the nested
`routes.api` string literal, defaulting to `/api`. -/
def extractApiBase (configProps : List PProp) : String :=
  match getProp configProps "routes" with
  | some (.assign _ (some (.objectLit rps _))) =>
    match getProp rps "api" with
    | some (.assign _ (some (.stringLit v))) => v
    | _ => "/api"
  | _ => "/api"

/-- A root-level custom endpoint record (part_000 `extractEndpoints`). -/
structure ConfigEndpoint where
  path : String
  method : String
  root : Bool
  line : Nat
deriving DecidableEq, Repr

/-- `extractEndpoints` (part_000 lines 1070-1112): object-literal elements
with both `path` and `method` string properties. -/
def extractEndpoints (configProps : List PProp) : List ConfigEndpoint :=
  match getProp configProps "endpoints" with
  | some (.assign _ (some (.arrayLit els))) =>
    els.filterMap fun el =>
      match el with
      | .objectLit ps ln =>
        match extractStringProperty ps "path", extractStringProperty ps "method" with
        | some p, some m => some ⟨p, m, extractBooleanProperty ps "root", ln⟩
        | _, _ => none
      | _ => none
  | _ => []

/-! ## Payload CMS operation tables (payload-cms-constants.ts) -/

structure PayloadOperation where
  name : String
  method : String
  pathSuffix : String
  hasBody : Bool
deriving DecidableEq, Repr

def COLLECTION_OPERATIONS : List PayloadOperation :=
  [⟨"find", "GET", "", false⟩,
   ⟨"findByID", "GET", "/:id", false⟩,
   ⟨"count", "GET", "/count", false⟩,
   ⟨"create", "POST", "", true⟩,
   ⟨"update", "PATCH", "", true⟩,
   ⟨"updateByID", "PATCH", "/:id", true⟩,
   ⟨"delete", "DELETE", "", false⟩,
   ⟨"deleteByID", "DELETE", "/:id", false⟩]

def AUTH_COLLECTION_OPERATIONS : List PayloadOperation :=
  [⟨"login", "POST", "/login", true⟩,
   ⟨"logout", "POST", "/logout", false⟩,
   ⟨"refresh", "POST", "/refresh-token", false⟩,
   ⟨"me", "GET", "/me", false⟩,
   ⟨"forgotPassword", "POST", "/forgot-password", true⟩,
   ⟨"resetPassword", "POST", "/reset-password", true⟩,
   ⟨"unlock", "POST", "/unlock", true⟩,
   ⟨"verifyEmail", "POST", "/verify/:token", false⟩]

def UPLOAD_COLLECTION_OPERATIONS : List PayloadOperation := []

def GLOBAL_OPERATIONS : List PayloadOperation :=
  [⟨"findOne", "GET", "", false⟩,
   ⟨"update", "POST", "", true⟩]

structure DefaultEndpoint where
  name : String
  method : String
  path : String
  hasBody : Bool
deriving DecidableEq, Repr

def DEFAULT_PAYLOAD_ENDPOINTS : List DefaultEndpoint :=
  [⟨"getPreference", "GET", "/payload-preferences/:key", false⟩,
   ⟨"createPreference", "POST", "/payload-preferences/:key", true⟩,
   ⟨"deletePreference", "DELETE", "/payload-preferences/:key", false⟩,
   ⟨"access", "GET", "/access", false⟩]

/-- `METHOD_MAP`: lowercase method name to uppercase HTTP method. -/
def METHOD_MAP (s : String) : Option String :=
  if s = "get" then some "GET"
  else if s = "post" then some "POST"
  else if s = "put" then some "PUT"
  else if s = "patch" then some "PATCH"
  else if s = "delete" then some "DELETE"
  else if s = "head" then some "HEAD"
  else if s = "options" then some "OPTIONS"
  else none

/-- JS `String.toLowerCase`, restricted to ASCII as the method names are. -/
def toLowerStr (s : String) : String := String.mk (s.toList.map Char.toLower)

/-! ## Payload CMS route generation (part_000 lines 1117-1327) -/

structure PayloadRouteHandler where
  path : String
  method : String
  file : String
  line : Nat
  source : String
  collectionSlug : Option String
  headers : Option (String × String)
deriving DecidableEq, Repr

/-- `path.relative(rootDir, f)`, modelled for the common case where `f`
lies under `rootDir` (strip the `rootDir ++ "/"` prefix), identity
otherwise.  No claim exercises the general case. -/
def pathRelative (rootDir f : String) : String :=
  if (rootDir ++ "/").toList.isPrefixOf f.toList
  then String.mk (f.toList.drop (rootDir.toList.length + 1)) else f

/-- `generateCollectionRoutes` (part_000 lines 1117-1214): CRUD block,
then the auth block when flagged, then the upload block when flagged,
then the custom collection endpoints. -/
def generateCollectionRoutes (collection : ParsedCollection) (apiBase : String)
    (configFilePath rootDir : String) : List PayloadRouteHandler :=
  let basePath := apiBase ++ "/" ++ collection.slug
  let filePath :=
    match collection.sourceFile with
    | some f => pathRelative rootDir f
    | none => configFilePath
  let crud := COLLECTION_OPERATIONS.map fun op =>
    let contentType : Option String :=
      if op.hasBody then
        if collection.upload && op.name == "create" then some "multipart/form-data"
        else some "application/json"
      else none
    { path := basePath ++ op.pathSuffix
      method := op.method
      file := filePath
      line := collection.line
      source := "collection"
      collectionSlug := some collection.slug
      headers := contentType.map (fun ct => ("Content-Type", ct)) }
  let auths :=
    if collection.auth then
      AUTH_COLLECTION_OPERATIONS.map fun op =>
        { path := basePath ++ op.pathSuffix
          method := op.method
          file := filePath
          line := collection.line
          source := "collection"
          collectionSlug := some collection.slug
          headers := if op.hasBody then some ("Content-Type", "application/json") else none }
    else []
  let uploads :=
    if collection.upload then
      UPLOAD_COLLECTION_OPERATIONS.map fun op =>
        { path := basePath ++ op.pathSuffix
          method := op.method
          file := filePath
          line := collection.line
          source := "collection"
          collectionSlug := some collection.slug
          headers := some ("Content-Type", "multipart/form-data") }
    else []
  let customs := collection.endpoints.filterMap fun e =>
    (METHOD_MAP (toLowerStr e.method)).map fun m =>
      { path := basePath ++ e.path
        method := m
        file := filePath
        line := collection.line
        source := "endpoint"
        collectionSlug := some collection.slug
        headers := none }
  crud ++ auths ++ uploads ++ customs

/-- `generateGlobalRoutes` (part_000 lines 1219-1267). -/
def generateGlobalRoutes (g : ParsedGlobal) (apiBase : String)
    (configFilePath rootDir : String) : List PayloadRouteHandler :=
  let basePath := apiBase ++ "/globals/" ++ g.slug
  let filePath :=
    match g.sourceFile with
    | some f => pathRelative rootDir f
    | none => configFilePath
  let ops := GLOBAL_OPERATIONS.map fun op =>
    { path := basePath ++ op.pathSuffix
      method := op.method
      file := filePath
      line := g.line
      source := "global"
      collectionSlug := none
      headers := if op.hasBody then some ("Content-Type", "application/json") else none }
  let customs := g.endpoints.filterMap fun e =>
    (METHOD_MAP (toLowerStr e.method)).map fun m =>
      { path := basePath ++ e.path
        method := m
        file := filePath
        line := g.line
        source := "endpoint"
        collectionSlug := none
        headers := none }
  ops ++ customs

/-- `generateEndpointRoute` (part_000 lines 1272-1298): unknown methods
yield null; a `root` endpoint keeps its declared path verbatim, otherwise
the API prefix string is prepended. -/
def generateEndpointRoute (e : ConfigEndpoint) (apiBase filePath : String) :
    Option PayloadRouteHandler :=
  (METHOD_MAP (toLowerStr e.method)).map fun m =>
    { path := if e.root then e.path else apiBase ++ e.path
      method := m
      file := filePath
      line := e.line
      source := "endpoint"
      collectionSlug := none
      headers := none }

/-- `generateDefaultEndpoints` (part_000 lines 1304-1327). -/
def generateDefaultEndpoints (apiBase filePath : String) : List PayloadRouteHandler :=
  DEFAULT_PAYLOAD_ENDPOINTS.map fun e =>
    { path := apiBase ++ e.path
      method := e.method
      file := filePath
      line := 0
      source := "default"
      collectionSlug := none
      headers := if e.hasBody then some ("Content-Type", "application/json") else none }

/-- `parsePayloadConfig` (part_000 lines 178-247) from the located config
object literal onward: collection routes, then global routes, then root
custom endpoints, then the default endpoints appended once. -/
def parsePayloadConfig (env : PEnv) (configProps : List PProp)
    (filePath rootDir : String) : List PayloadRouteHandler :=
  let apiBase := extractApiBase configProps
  let fromCollections := (extractCollections env configProps).flatMap fun c =>
    generateCollectionRoutes c apiBase filePath rootDir
  let fromGlobals := (extractGlobals env configProps).flatMap fun g =>
    generateGlobalRoutes g apiBase filePath rootDir
  let fromEndpoints := (extractEndpoints configProps).filterMap fun e =>
    generateEndpointRoute e apiBase filePath
  fromCollections ++ fromGlobals ++ fromEndpoints ++ generateDefaultEndpoints apiBase filePath

/-! ## Concrete inputs used by the claim theorems -/

/-- The empty project: no resolvable symbols, no modules. -/
def emptyEnv : PEnv := ⟨fun _ => [], fun _ => none⟩

/-- `{ slug: "posts", auth: true }`. -/
def postsProps : List PProp :=
  [.assign "slug" (some (.stringLit "posts")), .assign "auth" (some .trueLit)]

/-- `{ slug: "users" }`. -/
def usersProps : List PProp := [.assign "slug" (some (.stringLit "users"))]

/-- A Payload config whose `collections` array holds the single inline
literal `{ slug: "posts", auth: true }`. -/
def scenario4Config : List PProp :=
  [.assign "collections" (some (.arrayLit [.objectLit postsProps 3]))]

def scenario4Routes : List PayloadRouteHandler :=
  parsePayloadConfig emptyEnv scenario4Config "payload.config.ts" "."

/-- `{ slug: "posts", auth: true }` as parsed with no source file. -/
def postsParsed (line : Nat) : ParsedCollection := ⟨"posts", true, false, [], line, none⟩

/-- `{ slug: "users" }` as parsed from `src/collections/users.ts`. -/
def usersParsed : ParsedCollection := ⟨"users", false, false, [], 5, some "src/collections/users.ts"⟩

/-- `outerCols = [...innerCols]` and `innerCols = [{ slug: "posts", auth:
true }]`: a spread of a spread, whose inner literal is reachable. -/
def envNestedSpread : PEnv :=
  { symbols := fun s =>
      if s = "outerCols" then
        [.varDecl "outerCols" (some (.arrayLit [.spreadElem (.ident "innerCols")]))
          "src/collections/outer.ts"]
      else if s = "innerCols" then
        [.varDecl "innerCols" (some (.arrayLit [.objectLit postsProps 1]))
          "src/collections/inner.ts"]
      else []
    modules := fun _ => none }

/-- A heterogeneous spread target (literal, identifier reference and a
nested spread), the same array without its spread element, and a
self-referential binding. -/
def envHetero : PEnv :=
  { symbols := fun s =>
      if s = "withSpread" then
        [.varDecl "withSpread"
          (some (.arrayLit
            [.objectLit postsProps 2, .spreadElem (.ident "moreCols"), .ident "Users"]))
          "src/collections/index.ts"]
      else if s = "noSpread" then
        [.varDecl "noSpread"
          (some (.arrayLit [.objectLit postsProps 2, .ident "Users"]))
          "src/collections/index.ts"]
      else if s = "Users" then
        [.varDecl "Users" (some (.objectLit usersProps 5)) "src/collections/users.ts"]
      else if s = "moreCols" then
        [.varDecl "moreCols" (some (.arrayLit [.objectLit usersProps 9]))
          "src/collections/more.ts"]
      else if s = "selfCols" then
        [.varDecl "selfCols"
          (some (.arrayLit [.spreadElem (.ident "selfCols"), .ident "selfCols"]))
          "src/collections/self.ts"]
      else []
    modules := fun _ => none }

/-- A pages-router handler checking `req.method === "POST"`. -/
def pagesPostText : Chars :=
  ("export default function handler(req, res) \x7b if (req.method === \"POST\") \x7b return res.status(201).json(created) \x7d return res.status(405).end() \x7d").toList

/-- A pages-router handler with no method comparison at all. -/
def noMethodText : Chars :=
  ("export default function handler(req, res) \x7b return res.json(items) \x7d").toList

/-- A handler checking DELETE first and POST second. -/
def bothMethodsText : Chars :=
  ("const handler = (req, res) => \x7b if (req.method === \"DELETE\") \x7b return doDelete(req, res) \x7d if (req.method === \"POST\") \x7b return doPost(req, res) \x7d return doGet(req, res) \x7d").toList

/-- A router file body declaring `const appRouter = createRouter({...})`
with a `.query("list")` and a `.mutation("create")` procedure. -/
def trpcRouterText : Chars :=
  ("const appRouter = createRouter(\x7b\x7d).query(\"list\", listResolver).mutation(\"create\", createResolver)").toList

/-- A concrete stand-in for the JS `new RegExp` compiler: accepts exactly
one pattern string and rejects everything else. -/
def compileOkOnly : String → Option RegExpV :=
  fun s => if s = "^trpc" then some ⟨"^trpc", ""⟩ else none

/-- A compiler stand-in that accepts the empty pattern — as the real
`new RegExp("")` does, yielding the empty-match regex `(?:)`. -/
def compileEmptyOk : String → Option RegExpV :=
  fun s => if s = "" then some ⟨"(?:)", ""⟩ else none

/-! ## Supporting lemmas -/

theorem matchOptCatchAll_head {s : Chars} {r : Chars × Chars}
    (h : matchOptCatchAll s = some r) : s.head? = some '[' := by
  rw [matchOptCatchAll.eq_def] at h
  split at h
  · rfl
  · exact absurd h (by simp)

theorem matchCatchAll_head {s : Chars} {r : Chars × Chars}
    (h : matchCatchAll s = some r) : s.head? = some '[' := by
  rw [matchCatchAll.eq_def] at h
  split at h
  · rfl
  · exact absurd h (by simp)

theorem matchPlainSeg_head {s : Chars} {r : Chars × Chars}
    (h : matchPlainSeg s = some r) : s.head? = some '[' := by
  rw [matchPlainSeg.eq_def] at h
  split at h
  · rfl
  · exact absurd h (by simp)

theorem matchOptCatchAll_eq_none {s : Chars} (h : '[' ∉ s) : matchOptCatchAll s = none := by
  cases hm : matchOptCatchAll s with
  | none => rfl
  | some r =>
    have := matchOptCatchAll_head hm
    cases s with
    | nil => simp at this
    | cons c cs => simp_all

theorem matchCatchAll_eq_none {s : Chars} (h : '[' ∉ s) : matchCatchAll s = none := by
  cases hm : matchCatchAll s with
  | none => rfl
  | some r =>
    have := matchCatchAll_head hm
    cases s with
    | nil => simp at this
    | cons c cs => simp_all

theorem matchPlainSeg_eq_none {s : Chars} (h : '[' ∉ s) : matchPlainSeg s = none := by
  cases hm : matchPlainSeg s with
  | none => rfl
  | some r =>
    have := matchPlainSeg_head hm
    cases s with
    | nil => simp at this
    | cons c cs => simp_all

theorem jsReplaceScan_id {m : Chars → Option (Chars × Chars)}
    (hm : ∀ s : Chars, '[' ∉ s → m s = none) :
    ∀ (fuel : Nat) (s : Chars), '[' ∉ s → jsReplaceScan m fuel s = s := by
  intro fuel
  induction fuel with
  | zero => intro s _; rfl
  | succ n ih =>
    intro s h
    cases s with
    | nil => rfl
    | cons c cs =>
      rw [jsReplaceScan, hm _ h]
      have : '[' ∉ cs := fun hc => h (List.mem_cons_of_mem _ hc)
      rw [ih cs this]

theorem replaceOptCatchAll_id {s : Chars} (h : '[' ∉ s) : replaceOptCatchAll s = s :=
  jsReplaceScan_id (fun _ h => matchOptCatchAll_eq_none h) _ _ h

theorem replaceCatchAll_id {s : Chars} (h : '[' ∉ s) : replaceCatchAll s = s :=
  jsReplaceScan_id (fun _ h => matchCatchAll_eq_none h) _ _ h

theorem replacePlainSeg_id {s : Chars} (h : '[' ∉ s) : replacePlainSeg s = s :=
  jsReplaceScan_id (fun _ h => matchPlainSeg_eq_none h) _ _ h

theorem convertDynamicSegments_id {s : Chars} (h : '[' ∉ s) :
    convertDynamicSegments s = s := by
  unfold convertDynamicSegments
  rw [replaceOptCatchAll_id h, replaceCatchAll_id h, replacePlainSeg_id h]

/-! ## Claim theorems -/

/-- C4 (counterexample): `convertDynamicSegments` is not idempotent on
every path containing bracketed segments — on `[[x]]` one application
yields `:[x]` and a second application yields `::x`. -/
theorem spec2proof_c4_counterexample :
    convertDynamicSegments (convertDynamicSegments ("[[x]]".toList))
      ≠ convertDynamicSegments ("[[x]]".toList) := by decide

/-- C4 (amended): whenever one application of `convertDynamicSegments`
leaves no `[` in the result — which holds for every path whose bracketed
segments are well formed, i.e. whose segment names do not themselves
contain `[` — a second application is the identity; and the three segment
forms are rewritten order-correctly and are never conflated:
`[[...slug]]` to the optional-catch-all token `:slug*?`, `[...slug]` to
the catch-all token `:slug*`, and `[slug]` to the plain token `:slug`. -/
theorem spec2proof_c4_amended :
    (∀ p : Chars, '[' ∉ convertDynamicSegments p →
        convertDynamicSegments (convertDynamicSegments p) = convertDynamicSegments p)
    ∧ convertDynamicSegments ("[[...slug]]".toList) = ":slug*?".toList
    ∧ convertDynamicSegments ("[...slug]".toList) = ":slug*".toList
    ∧ convertDynamicSegments ("[slug]".toList) = ":slug".toList
    ∧ convertDynamicSegments ("/api/[[...slug]]".toList)
        ≠ convertDynamicSegments ("/api/[...slug]".toList)
    ∧ convertDynamicSegments ("/api/[...slug]".toList)
        ≠ convertDynamicSegments ("/api/[slug]".toList) := by
  refine ⟨fun p h => convertDynamicSegments_id h, by decide, by decide, by decide,
    by decide, by decide⟩

/-- Witness for C4 (amended) at the concrete path `/api/[[...slug]]/[id]`. -/
theorem spec2proof_c4_amended_witness :
    '[' ∉ convertDynamicSegments ("/api/[[...slug]]/[id]".toList)
    ∧ convertDynamicSegments (convertDynamicSegments ("/api/[[...slug]]/[id]".toList))
        = convertDynamicSegments ("/api/[[...slug]]/[id]".toList) :=
  ⟨by decide, spec2proof_c4_amended.1 ("/api/[[...slug]]/[id]".toList) (by decide)⟩

/-- C9: `isAppRouterFile` returns true for every path ending in
`/route.js` — the `/app/` containment conjunct binds only to the
`/route.ts` test because `&&` binds tighter than `||` — while a
`/route.ts` path needs the `/app/` segment. -/
theorem spec2proof_c9 :
    (∀ pre : Chars, isAppRouterFile (pre ++ "/route.js".toList) = true)
    ∧ isAppRouterFile ("/pkg/route.ts".toList) = false
    ∧ isAppRouterFile ("/app/users/route.ts".toList) = true := by
  refine ⟨?_, by decide, by decide⟩
  intro pre
  have h1 : normalizeSlashes (pre ++ "/route.js".toList)
      = normalizeSlashes pre ++ "/route.js".toList := by
    unfold normalizeSlashes
    rw [List.map_append]
    congr 1
  have h2 : ("/route.js".toList).isSuffixOf
      (normalizeSlashes pre ++ "/route.js".toList) = true :=
    List.isSuffixOf_iff_suffix.mpr (List.suffix_append _ _)
  simp only [isAppRouterFile, h1]
  rw [h2, Bool.or_true]

/-- C1: for the config whose collections array holds the literal
`{ slug: "posts", auth: true }` (no upload, no custom endpoints), the
Payload parser emits 20 handlers: 8 standard CRUD routes then 8 auth
routes, all under `/api/posts`, followed by exactly the 4 default
endpoints (three on `/api/payload-preferences/:key`, one GET
`/api/access`), appended once. -/
theorem spec2proof_c1 :
    scenario4Routes.length = 20
    ∧ (scenario4Routes.take 8).map (fun h => (h.method, h.path)) =
        [("GET", "/api/posts"), ("GET", "/api/posts/:id"), ("GET", "/api/posts/count"),
         ("POST", "/api/posts"), ("PATCH", "/api/posts"), ("PATCH", "/api/posts/:id"),
         ("DELETE", "/api/posts"), ("DELETE", "/api/posts/:id")]
    ∧ ((scenario4Routes.drop 8).take 8).map (fun h => (h.method, h.path)) =
        [("POST", "/api/posts/login"), ("POST", "/api/posts/logout"),
         ("POST", "/api/posts/refresh-token"), ("GET", "/api/posts/me"),
         ("POST", "/api/posts/forgot-password"), ("POST", "/api/posts/reset-password"),
         ("POST", "/api/posts/unlock"), ("POST", "/api/posts/verify/:token")]
    ∧ (scenario4Routes.take 16).all
        (fun h => ("/api/posts".toList).isPrefixOf h.path.toList) = true
    ∧ scenario4Routes.drop 16 = generateDefaultEndpoints "/api" "payload.config.ts"
    ∧ (scenario4Routes.drop 16).map (fun h => (h.method, h.path)) =
        [("GET", "/api/payload-preferences/:key"), ("POST", "/api/payload-preferences/:key"),
         ("DELETE", "/api/payload-preferences/:key"), ("GET", "/api/access")] := by
  refine ⟨by decide, by decide, by decide, by decide, by decide, by decide⟩

/-- C3 (counterexample): the spread resolver does not return every
reachable collection literal — a nested spread (`outerCols` spreads
`innerCols`, whose array holds `{ slug: "posts", auth: true }`) resolves
to the empty list, although the inner literal is reachable (spreading
`innerCols` directly does return it). -/
theorem spec2proof_c3_counterexample :
    resolveSpreadCollections envNestedSpread (.ident "outerCols") = []
    ∧ resolveSpreadCollections envNestedSpread (.ident "innerCols") = [postsParsed 1] := by
  exact ⟨rfl, rfl⟩

/-- C3 (amended): spread resolution terminates for every element shape
(it is a total function, defined without any visited set, because the
resolver chain never recurses into another spread), object-literal and
identifier elements are each returned exactly once, and a nested spread
element contributes nothing: inserting a spread element anywhere into the
referenced array leaves the result unchanged, and a self-referential
binding resolves to the empty list. -/
theorem spec2proof_c3_amended :
    (∀ (env : PEnv) (n₁ n₂ f₁ f₂ : String) (es1 es2 : List PExpr) (x : PExpr),
        env.symbols n₁ = [.varDecl n₁ (some (.arrayLit (es1 ++ .spreadElem x :: es2))) f₁] →
        env.symbols n₂ = [.varDecl n₂ (some (.arrayLit (es1 ++ es2))) f₂] →
        resolveSpreadCollections env (.ident n₁) = resolveSpreadCollections env (.ident n₂))
    ∧ resolveSpreadCollections envHetero (.ident "withSpread") = [postsParsed 2, usersParsed]
    ∧ (resolveSpreadCollections envHetero (.ident "withSpread")).count (postsParsed 2) = 1
    ∧ (resolveSpreadCollections envHetero (.ident "withSpread")).count usersParsed = 1
    ∧ resolveSpreadCollections envHetero (.ident "selfCols") = [] := by
  refine ⟨?_, rfl, ?_, ?_, rfl⟩
  · intro env n₁ n₂ f₁ f₂ es1 es2 x h1 h2
    show (env.symbols n₁).flatMap _ = (env.symbols n₂).flatMap _
    rw [h1, h2]
    simp only [List.flatMap_cons, List.flatMap_nil, List.append_nil]
    show List.filterMap _ _ = List.filterMap _ _
    rw [List.filterMap_append, List.filterMap_append, List.filterMap_cons]
  · decide
  · decide

/-- Witness for C3 (amended): the spread-insertion invariance applied to
the two concrete bindings of `envHetero`. -/
theorem spec2proof_c3_amended_witness :
    resolveSpreadCollections envHetero (.ident "withSpread")
      = resolveSpreadCollections envHetero (.ident "noSpread") :=
  spec2proof_c3_amended.1 envHetero "withSpread" "noSpread"
    "src/collections/index.ts" "src/collections/index.ts"
    [.objectLit postsProps 2] [.ident "Users"] (.ident "moreCols") rfl rfl

/-- C5: the file `pages/api/orders/index.ts` whose handler checks
`req.method === "POST"` yields the single Route POST `/api/orders`; and
both pages-router method detectors default to GET when the handler text
contains no equality and no switch comparison against an HTTP verb. -/
theorem spec2proof_c5 :
    parsePageRouteFileCore ("pages/api/orders/index.ts".toList) pagesPostText
      = { name := "POST /api/orders", path := "/api/orders", method := "POST",
          filePath := "pages/api/orders/index.ts", type := "nextjs-page" }
    ∧ (∀ t : Chars, hasMethodEq ("POST".toList) t = false →
        hasMethodEq ("PUT".toList) t = false →
        hasMethodEq ("PATCH".toList) t = false →
        hasMethodEq ("DELETE".toList) t = false →
        detectPageMethod t = "GET")
    ∧ (∀ t : Chars, findMethodChecks t = [] → findSwitchCases t = [] →
        detectPagesRouterMethods t = ["GET"]) := by
  refine ⟨by decide, ?_, ?_⟩
  · intro t h1 h2 h3 h4
    unfold detectPageMethod
    rw [h1, h2, h3, h4]
    simp
  · intro t h1 h2
    simp [detectPagesRouterMethods, h1, h2, addNewMethods]

/-- Witness for C5 at a handler text with no method comparison. -/
theorem spec2proof_c5_witness :
    detectPageMethod noMethodText = "GET"
    ∧ detectPagesRouterMethods noMethodText = ["GET"] :=
  ⟨spec2proof_c5.2.1 noMethodText (by decide) (by decide) (by decide) (by decide),
   spec2proof_c5.2.2 noMethodText (by decide) (by decide)⟩

/-- C6 (counterexample): the tRPC extractor names routes after the file,
not after the declared router variable — a file `orders.router.ts` whose
body declares `const appRouter = createRouter({...})` with
`.query("list")` and `.mutation("create")` yields
`/api/trpc/orders.list` and `/api/trpc/orders.create`, and no route at
the claimed `/api/trpc/app.list`. -/
theorem spec2proof_c6_counterexample :
    (parseTRPCRouterFileCore ("src/server/orders.router.ts".toList) trpcRouterText).map
        (fun r => (r.method, r.path))
      = [("GET", "/api/trpc/orders.list"), ("POST", "/api/trpc/orders.create")]
    ∧ ∀ r ∈ parseTRPCRouterFileCore ("src/server/orders.router.ts".toList) trpcRouterText,
        r.path ≠ "/api/trpc/app.list" := by
  refine ⟨by decide, by decide⟩

/-- C6 (amended): the router name is the file base name with any
`.router` suffix stripped; for a file named `app.router.ts` containing
`.query("list")` and `.mutation("create")` the extractor emits exactly
two Routes, GET `/api/trpc/app.list` and POST `/api/trpc/app.create`. -/
theorem spec2proof_c6_amended :
    (parseTRPCRouterFileCore ("src/server/app.router.ts".toList) trpcRouterText).map
        (fun r => (r.method, r.path))
      = [("GET", "/api/trpc/app.list"), ("POST", "/api/trpc/app.create")]
    ∧ (parseTRPCRouterFileCore ("src/server/app.router.ts".toList) trpcRouterText).length
        = 2 := by
  refine ⟨by decide, by decide⟩

/-- C10: `parsePageRouteFile` emits one Route per file, whose method is
the first match of the fixed priority POST, PUT, PATCH, DELETE (GET when
none match) — in particular a handler checking DELETE before POST still
yields a POST route. -/
theorem spec2proof_c10 :
    (∀ t : Chars, hasMethodEq ("POST".toList) t = true → detectPageMethod t = "POST")
    ∧ (∀ t : Chars, hasMethodEq ("POST".toList) t = false →
        hasMethodEq ("PUT".toList) t = true → detectPageMethod t = "PUT")
    ∧ (∀ t : Chars, hasMethodEq ("POST".toList) t = false →
        hasMethodEq ("PUT".toList) t = false →
        hasMethodEq ("PATCH".toList) t = true → detectPageMethod t = "PATCH")
    ∧ (∀ t : Chars, hasMethodEq ("POST".toList) t = false →
        hasMethodEq ("PUT".toList) t = false →
        hasMethodEq ("PATCH".toList) t = false →
        hasMethodEq ("DELETE".toList) t = true → detectPageMethod t = "DELETE")
    ∧ hasMethodEq ("DELETE".toList) bothMethodsText = true
    ∧ (parsePageRouteFileCore ("pages/api/items.ts".toList) bothMethodsText).method
        = "POST" := by
  refine ⟨?_, ?_, ?_, ?_, by decide, by decide⟩
  · intro t h1; unfold detectPageMethod; rw [h1]; simp
  · intro t h1 h2; unfold detectPageMethod; rw [h1, h2]; simp
  · intro t h1 h2 h3; unfold detectPageMethod; rw [h1, h2, h3]; simp
  · intro t h1 h2 h3 h4; unfold detectPageMethod; rw [h1, h2, h3, h4]; simp

/-- Witness for C10: the priority conjunct applied at the handler that
checks DELETE first and POST second. -/
theorem spec2proof_c10_witness :
    detectPageMethod bothMethodsText = "POST" :=
  spec2proof_c10.1 bothMethodsText (by decide)

/-! ## Further supporting lemmas (path shapes) -/

theorem take_strip {t suf s : Chars} (ht : t ++ suf = s) :
    s.take (s.length - suf.length) = t := by
  subst ht
  have : (t ++ suf).length - suf.length = t.length := by simp [List.length_append]
  rw [this]
  exact List.take_left t suf

theorem append_cons_cons_shape {t suf w : Chars} {c1 c2 : Char}
    (ht : t ++ suf = c1 :: c2 :: w)
    (hA : ¬ (suf.head? = some c1 ∧ (suf.drop 1).head? = some c2))
    (hB : suf.head? ≠ some c2) :
    ∃ u, t = c1 :: c2 :: u := by
  match t, ht with
  | [], ht =>
    rw [List.nil_append] at ht
    subst ht
    exact absurd ⟨rfl, rfl⟩ hA
  | [x], ht =>
    rw [List.cons_append, List.nil_append] at ht
    injection ht with h1 h2
    exact absurd (by rw [h2]; rfl) hB
  | x :: y :: t2, ht =>
    rw [List.cons_append, List.cons_append] at ht
    injection ht with h1 h2
    injection h2 with h3 _
    exact ⟨t2, by rw [h1, h3]⟩

theorem matchPlainSeg_cons_ne {c : Char} {s : Chars} (h : c ≠ '[') :
    matchPlainSeg (c :: s) = none := by
  cases hm : matchPlainSeg (c :: s) with
  | none => rfl
  | some r =>
    have hh := matchPlainSeg_head hm
    simp only [List.head?_cons, Option.some.injEq] at hh
    exact absurd hh h

theorem replacePlainSeg_cons_cons {c1 c2 : Char} (u : Chars)
    (h1 : c1 ≠ '[') (h2 : c2 ≠ '[') :
    replacePlainSeg (c1 :: c2 :: u) = c1 :: c2 :: replacePlainSeg u := by
  show jsReplaceScan matchPlainSeg (u.length + 1 + 1) (c1 :: c2 :: u) = _
  simp only [jsReplaceScan, matchPlainSeg_cons_ne h1, matchPlainSeg_cons_ne h2]
  rfl

/-- Every route path the pages-router parser derives from a file under
`pages/api/` keeps its leading slash, whatever the rest of the file path
and whatever bracketed segments it contains. -/
theorem extractPageRoutePath_slash (rest : Chars) :
    (extractPageRoutePath ("pages/api/".toList ++ rest)).head? = some '/' := by
  have hpre : ("pages/api/".toList).isPrefixOf ("pages/api/".toList ++ rest) = true :=
    List.isPrefixOf_iff_prefix.mpr (List.prefix_append _ _)
  have hdrop : ("pages/api/".toList ++ rest).drop 10 = rest := by
    have h10 : ("pages/api/".toList).length = 10 := by decide
    conv_lhs => rw [← h10]
    exact List.drop_left _ _
  simp only [extractPageRoutePath, hpre, hdrop, eq_self_iff_true, if_true]
  have hshape : ∃ x, (if ((".ts".toList).isSuffixOf ("/api/".toList ++ rest) ||
        (".js".toList).isSuffixOf ("/api/".toList ++ rest)) = true then
        List.take (("/api/".toList ++ rest).length - 3) ("/api/".toList ++ rest)
      else "/api/".toList ++ rest) = '/' :: 'a' :: x := by
    by_cases hc : ((".ts".toList).isSuffixOf ("/api/".toList ++ rest) ||
        (".js".toList).isSuffixOf ("/api/".toList ++ rest)) = true
    · rw [if_pos hc]
      have hE : "/api/".toList ++ rest = '/' :: 'a' :: ('p' :: 'i' :: '/' :: rest) := rfl
      rcases Bool.or_eq_true _ _ |>.mp hc with hts | hjs
      · obtain ⟨t, ht⟩ := List.isSuffixOf_iff_suffix.mp hts
        rw [hE] at ht ⊢
        obtain ⟨u, rfl⟩ := append_cons_cons_shape ht (by decide) (by decide)
        refine ⟨u, ?_⟩
        rw [show (3 : Nat) = (".ts".toList).length from rfl]
        exact take_strip ht
      · obtain ⟨t, ht⟩ := List.isSuffixOf_iff_suffix.mp hjs
        rw [hE] at ht ⊢
        obtain ⟨u, rfl⟩ := append_cons_cons_shape ht (by decide) (by decide)
        refine ⟨u, ?_⟩
        rw [show (3 : Nat) = (".js".toList).length from rfl]
        exact take_strip ht
    · rw [if_neg hc]
      exact ⟨'p' :: 'i' :: '/' :: rest, rfl⟩
  obtain ⟨x, hx⟩ := hshape
  rw [hx, replacePlainSeg_cons_cons x (by decide) (by decide)]
  generalize replacePlainSeg x = y
  by_cases hidx : ("/index".toList).isSuffixOf ('/' :: 'a' :: y) = true
  · rw [if_pos hidx]
    obtain ⟨t, ht⟩ := List.isSuffixOf_iff_suffix.mp hidx
    obtain ⟨u, rfl⟩ := append_cons_cons_shape ht (by decide) (by decide)
    have htake : List.take (('/' :: 'a' :: y).length - 6) ('/' :: 'a' :: y)
        = '/' :: 'a' :: u := by
      rw [show (6 : Nat) = ("/index".toList).length from rfl]
      exact take_strip ht
    rw [htake]
    rfl
  · rw [if_neg hidx]
    rfl

theorem string_append_head {s : String} (t : String) (h : s.toList.head? = some '/') :
    (s ++ t).toList.head? = some '/' := by
  show ((s ++ t).data.head? = some '/')
  rw [String.data_append]
  cases hs : s.data with
  | nil =>
    rw [show s.toList = s.data from rfl, hs] at h
    simp at h
  | cons a as =>
    rw [show s.toList = s.data from rfl, hs] at h
    simpa using h

/-- Every handler generated for a collection under the default `/api`
prefix has a path starting with `/`. -/
theorem generateCollectionRoutes_slash (c : ParsedCollection) (cfg root : String) :
    ∀ h ∈ generateCollectionRoutes c "/api" cfg root, h.path.toList.head? = some '/' := by
  have base : ∀ x : String, (("/api" ++ "/" ++ c.slug) ++ x).toList.head? = some '/' := by
    intro x
    exact string_append_head x (string_append_head c.slug (string_append_head "/" rfl))
  intro h hmem
  simp only [generateCollectionRoutes] at hmem
  rcases List.mem_append.mp hmem with h1 | hD
  · rcases List.mem_append.mp h1 with h2 | hC
    · rcases List.mem_append.mp h2 with hA | hB
      · obtain ⟨op, _, rfl⟩ := List.mem_map.mp hA
        exact base op.pathSuffix
      · by_cases ha : c.auth
        · rw [if_pos ha] at hB
          obtain ⟨op, _, rfl⟩ := List.mem_map.mp hB
          exact base op.pathSuffix
        · rw [if_neg ha] at hB
          simp at hB
    · by_cases hu : c.upload
      · rw [if_pos hu] at hC
        simp [UPLOAD_COLLECTION_OPERATIONS] at hC
      · rw [if_neg hu] at hC
        simp at hC
  · obtain ⟨e, _, he⟩ := List.mem_filterMap.mp hD
    obtain ⟨m, _, hfa⟩ := Option.map_eq_some'.mp he
    subst hfa
    exact base e.path

theorem generateDefaultEndpoints_slash (cfg : String) :
    ∀ h ∈ generateDefaultEndpoints "/api" cfg, h.path.toList.head? = some '/' := by
  intro h hmem
  obtain ⟨e, _, rfl⟩ := List.mem_map.mp hmem
  exact string_append_head e.path rfl

/-- C2: adding the `auth` flag to a collection, all else equal, inserts
exactly the fixed eight auth operations (login, logout, refresh-token,
me, forgot-password, reset-password, unlock, verify/:token) under the
collection's base path right after the CRUD block, leaving every other
generated route unchanged; removing the flag shrinks the output by
exactly eight. -/
theorem spec2proof_c2 (c : ParsedCollection) (base cfg root : String) :
    (generateCollectionRoutes { c with auth := true } base cfg root).length
        = (generateCollectionRoutes { c with auth := false } base cfg root).length + 8
    ∧ (generateCollectionRoutes { c with auth := true } base cfg root).take 8
        = (generateCollectionRoutes { c with auth := false } base cfg root).take 8
    ∧ (generateCollectionRoutes { c with auth := true } base cfg root).drop 16
        = (generateCollectionRoutes { c with auth := false } base cfg root).drop 8
    ∧ (((generateCollectionRoutes { c with auth := true } base cfg root).drop 8).take 8).map
          (fun h => (h.method, h.path))
        = AUTH_COLLECTION_OPERATIONS.map
            (fun op => (op.method, base ++ "/" ++ c.slug ++ op.pathSuffix)) := by
  refine ⟨?_, ?_, ?_, ?_⟩ <;>
    simp [generateCollectionRoutes, COLLECTION_OPERATIONS, AUTH_COLLECTION_OPERATIONS,
      UPLOAD_COLLECTION_OPERATIONS]

/-- C7 (counterexample): the pages-router parser of the vscode extension
emits a Route whose path does not begin with `/` for a file under
`src/pages/api/` (the `^pages/api/` rewrite does not fire), refuting the
universal leading-slash invariant. -/
theorem spec2proof_c7_counterexample :
    (parsePageRouteFileCore ("src/pages/api/orders.ts".toList) pagesPostText).path
      = "src/pages/api/orders"
    ∧ (parsePageRouteFileCore ("src/pages/api/orders.ts".toList) pagesPostText).path.toList.head?
        ≠ some '/' := by
  refine ⟨by decide, by decide⟩

/-- C7 (amended): the leading-slash / canonical-token invariant holds on
the canonical layouts: every pages-router file under `pages/api/` yields
a path starting with `/`; every Payload collection route and default
endpoint under the default `/api` prefix starts with `/`; and the
app-router path extractor converts `app/api/users/[id]/route.ts` to the
canonical `/api/users/:id`.  (Files outside those layouts, such as
`src/pages/api/...`, may yield paths without the leading slash.) -/
theorem spec2proof_c7_amended :
    (∀ rest : Chars, (extractPageRoutePath ("pages/api/".toList ++ rest)).head? = some '/')
    ∧ (∀ (c : ParsedCollection) (cfg root : String),
        ∀ h ∈ generateCollectionRoutes c "/api" cfg root, h.path.toList.head? = some '/')
    ∧ (∀ cfg : String, ∀ h ∈ generateDefaultEndpoints "/api" cfg,
        h.path.toList.head? = some '/')
    ∧ extractAppRoutePath ("app/api/users/[id]/route.ts".toList) = "/api/users/:id".toList :=
  ⟨extractPageRoutePath_slash, generateCollectionRoutes_slash,
   generateDefaultEndpoints_slash, by decide⟩

/-- Witness for C7 (amended) at a concrete pages-router file and a
concrete generated collection route. -/
theorem spec2proof_c7_amended_witness :
    (extractPageRoutePath ("pages/api/".toList ++ "orders/index.ts".toList)).head? = some '/'
    ∧ ({ path := "/api/posts", method := "GET", file := "payload.config.ts", line := 3,
         source := "collection", collectionSlug := some "posts",
         headers := none } : PayloadRouteHandler).path.toList.head? = some '/' :=
  ⟨spec2proof_c7_amended.1 ("orders/index.ts".toList),
   spec2proof_c7_amended.2.1 (postsParsed 3) "payload.config.ts" "."
     { path := "/api/posts", method := "GET", file := "payload.config.ts", line := 3,
       source := "collection", collectionSlug := some "posts", headers := none }
     (by decide)⟩

/-- C8 (counterexample): a supplied *empty* pattern string is a valid
regular expression (`new RegExp("")` never throws, yielding `(?:)`), yet
the source's `if (!pattern)` falsiness guard returns the compiled
default `/router$/i` with no diagnostic — the compiled user pattern is
not used, refuting the claim's "if the string is valid, the compiled
user pattern is used". -/
theorem spec2proof_c8_counterexample :
    compileEmptyOk "" = some ⟨"(?:)", ""⟩
    ∧ buildRouterIdentifierPattern compileEmptyOk (some "")
        = (ROUTER_IDENTIFIER_PATTERN, [])
    ∧ (buildRouterIdentifierPattern compileEmptyOk (some "")).1 ≠ ⟨"(?:)", ""⟩ := by
  exact ⟨rfl, rfl, by decide⟩

/-- C8 (amended): the router-identifier configuration never fails on a
user pattern: an absent or *empty* pattern string (the `!pattern`
falsiness guard) yields the compiled default `/router$/i` with no
diagnostic; a non-empty pattern the regex compiler accepts is used as
compiled; a non-empty pattern the compiler rejects falls back to the
default and a diagnostic is emitted — and `buildRouterDetectionConfig`
uses exactly that pattern. -/
theorem spec2proof_c8_amended (compile : String → Option RegExpV) (p : String) (r : RegExpV) :
    buildRouterIdentifierPattern compile none = (ROUTER_IDENTIFIER_PATTERN, [])
    ∧ buildRouterIdentifierPattern compile (some "") = (ROUTER_IDENTIFIER_PATTERN, [])
    ∧ (p ≠ "" → compile p = some r →
        buildRouterIdentifierPattern compile (some p) = (r, []))
    ∧ (p ≠ "" → compile p = none →
        (buildRouterIdentifierPattern compile (some p)).1 = ROUTER_IDENTIFIER_PATTERN
        ∧ (buildRouterIdentifierPattern compile (some p)).2 ≠ [])
    ∧ (buildRouterDetectionConfig compile none (some p)).1.identifierPattern
        = (buildRouterIdentifierPattern compile (some p)).1 := by
  refine ⟨rfl, rfl, ?_, ?_, ?_⟩
  · intro hp h
    simp [buildRouterIdentifierPattern, hp, h]
  · intro hp h
    simp [buildRouterIdentifierPattern, hp, h]
  · simp [buildRouterDetectionConfig]

/-- Witness for C8 (amended): a compiler accepting exactly `^trpc` — the
accepted non-empty pattern is used compiled, the rejected pattern
`[invalid` falls back to the default with a diagnostic. -/
theorem spec2proof_c8_amended_witness :
    buildRouterIdentifierPattern compileOkOnly (some "^trpc") = (⟨"^trpc", ""⟩, [])
    ∧ (buildRouterIdentifierPattern compileOkOnly (some "[invalid")).1
        = ROUTER_IDENTIFIER_PATTERN
    ∧ (buildRouterIdentifierPattern compileOkOnly (some "[invalid")).2 ≠ [] :=
  ⟨(spec2proof_c8_amended compileOkOnly "^trpc" ⟨"^trpc", ""⟩).2.2.1 (by decide) (by decide),
   ((spec2proof_c8_amended compileOkOnly "[invalid" ⟨"^trpc", ""⟩).2.2.2.1
     (by decide) (by decide)).1,
   ((spec2proof_c8_amended compileOkOnly "[invalid" ⟨"^trpc", ""⟩).2.2.2.1
     (by decide) (by decide)).2⟩

/-- Witness for C2 at the concrete `posts` collection. -/
theorem spec2proof_c2_witness :
    (generateCollectionRoutes { postsParsed 3 with auth := true }
        "/api" "payload.config.ts" ".").length
      = (generateCollectionRoutes { postsParsed 3 with auth := false }
          "/api" "payload.config.ts" ".").length + 8 :=
  (spec2proof_c2 (postsParsed 3) "/api" "payload.config.ts" ".").1

/-- Witness for C9 at a concrete path with no `/app/` segment. -/
theorem spec2proof_c9_witness :
    isAppRouterFile ("/lib/handlers".toList ++ "/route.js".toList) = true :=
  spec2proof_c9.1 ("/lib/handlers".toList)

end WatchApi
